import Mathlib

/-!
Shallow embedding of the icon-conversion script res/tools/generate-md-icons.py.

The script is straight-line Python: it reads one command-line argument (the
base directory of a material-design-icons checkout), ensures two output
directories exist, and for each catalog entry invokes the external rasterizer
(convert) and then the metadata stripper (mogrify).  We embed it as the
sequence of external commands it issues (each command an argument vector, a
List String), together with an oracle-threading variant that models the exit
status subprocess.run returns (and which the script discards), and a small
filesystem model for the effects of the external tools.
-/

/-- The ICONS catalog: group name to icon names (source lines 21-24). -/
def ICONS : List (String × List String) :=
  [("av", ["play_arrow", "pause", "stop"]),
   ("action", ["drag_indicator"])]

/-- The SYMBOLS catalog (source lines 46-55). -/
def SYMBOLS : List String :=
  ["drag_indicator", "file_open", "file_save", "new_window",
   "piano", "play_arrow", "stop", "view_timeline"]

/-- All icon names, across groups, in catalog iteration order. -/
def iconNames : List String := ICONS.flatMap (fun p => p.2)

/-- Output path for an icon (source line 34). -/
def iconOutfile (name : String) : String :=
  "res/images/md-icons/" ++ name ++ ".png"

/-- Output path for a symbol (source line 57). -/
def symbolOutfile (symbol : String) : String :=
  "res/images/md-symbols/" ++ symbol ++ ".png"

/-- Source SVG path for an icon (source lines 36-38). -/
def iconSrcPath (md_dir group name : String) : String :=
  md_dir ++ "/src/" ++ group ++ "/" ++ name ++ "/materialicons/24px.svg"

/-- Source SVG path for a symbol (source lines 59-60). -/
def symbolSrcPath (md_dir symbol : String) : String :=
  md_dir ++ "/symbols/web/" ++ symbol ++ "/materialsymbolssharp/" ++
    symbol ++ "_wght100_24px.svg"

/-- The argument vector of the rasterizer invocation (source lines 35-41 and 58-63). -/
def convertCmd (src outfile : String) : List String :=
  ["convert", src, "-density", "576", "-background", "none", "-negate", outfile]

/-- The argument vector of the metadata-strip invocation (source lines 43 and 65). -/
def mogrifyCmd (outfile : String) : List String :=
  ["mogrify", "-strip", outfile]

/-- The first directory-preparation command (source line 29). -/
def mkdirIconsCmd : List String := ["mkdir", "-p", "res/images/md-icons"]

/-- The second directory-preparation command (source line 30). -/
def mkdirSymbolsCmd : List String := ["mkdir", "-p", "res/images/md-symbols"]

/-- Commands issued by the ICONS loop (source lines 32-43), in iteration order:
for each (group, name), the convert invocation and then the mogrify invocation. -/
def iconCommands (md_dir : String) : List (List String) :=
  ICONS.flatMap (fun p => p.2.flatMap (fun name =>
    [convertCmd (iconSrcPath md_dir p.1 name) (iconOutfile name),
     mogrifyCmd (iconOutfile name)]))

/-- Commands issued by the SYMBOLS loop (source lines 56-65), in iteration order. -/
def symbolCommands (md_dir : String) : List (List String) :=
  SYMBOLS.flatMap (fun symbol =>
    [convertCmd (symbolSrcPath md_dir symbol) (symbolOutfile symbol),
     mogrifyCmd (symbolOutfile symbol)])

/-- The full sequence of external commands the script issues, in order
(source lines 29-65): the two mkdir invocations, then the ICONS loop,
then the SYMBOLS loop. -/
def scriptCommands (md_dir : String) : List (List String) :=
  mkdirIconsCmd :: mkdirSymbolsCmd :: (iconCommands md_dir ++ symbolCommands md_dir)

/-- State threaded through a run: the commands issued so far, in order. -/
structure RunState where
  issued : List (List String)
deriving DecidableEq

/-- Model of subprocess.run(args): issues the command and returns whatever
exit status the environment gives (the oracle, indexed by invocation number
and command vector).  The Python script discards the returned
CompletedProcess, which is modelled by the caller ignoring the Int. -/
def runProc (o : Nat → List String → Int) (cmd : List String) (st : RunState) :
    Int × RunState :=
  (o st.issued.length cmd, ⟨st.issued ++ [cmd]⟩)

/-- The body of the script after the argument read (source lines 29-65),
with the exit status of every external invocation supplied by the oracle o:
each subprocess.run call is issued in program order and its status is bound
and then dropped, exactly as the Python drops the CompletedProcess value. -/
def scriptRun (o : Nat → List String → Int) (md_dir : String) : RunState :=
  let st : RunState := ⟨[]⟩
  let (_, st) := runProc o mkdirIconsCmd st
  let (_, st) := runProc o mkdirSymbolsCmd st
  let st := ICONS.foldl (fun st p =>
    p.2.foldl (fun st name =>
      let (_, st) := runProc o (convertCmd (iconSrcPath md_dir p.1 name) (iconOutfile name)) st
      let (_, st) := runProc o (mogrifyCmd (iconOutfile name)) st
      st) st) st
  let st := SYMBOLS.foldl (fun st symbol =>
    let (_, st) := runProc o (convertCmd (symbolSrcPath md_dir symbol) (symbolOutfile symbol)) st
    let (_, st) := runProc o (mogrifyCmd (symbolOutfile symbol)) st
    st) st
  st

/-- The whole script, from process start: sys.argv[1] is read first
(source line 26) and raises IndexError when absent, in which case no
external command is ever issued (modelled as none); otherwise the body
runs and the issued commands are returned.  argv includes the program
name at position 0, as sys.argv does. -/
def scriptMain (argv : List String) (o : Nat → List String → Int) :
    Option (List (List String)) :=
  match argv[1]? with
  | none => none
  | some md_dir => some (scriptRun o md_dir).issued

/-- The source paths a command reads from under the base directory: the
second argument of a convert invocation (the SVG file).  The mogrify
invocation operates on its operand in place (it is an output target, see
cmdFileTargets); mkdir reads nothing. -/
def cmdSrcInputs (cmd : List String) : List String :=
  match cmd with
  | ["convert", src, "-density", _, "-background", _, "-negate", _] => [src]
  | _ => []

/-- The files a command writes: the last argument of a convert invocation,
and the operand of a mogrify invocation (mutated in place). -/
def cmdFileTargets (cmd : List String) : List String :=
  match cmd with
  | ["convert", _, "-density", _, "-background", _, "-negate", out] => [out]
  | ["mogrify", "-strip", f] => [f]
  | _ => []

/-- Helper for pathPrefixes: acc holds the characters consumed so far in
reverse; a prefix is emitted at every slash and at the end of the path. -/
def pathPrefixesAux (acc : List Char) : List Char → List String
  | [] => [String.mk acc.reverse]
  | c :: cs =>
    if c = '/' then String.mk acc.reverse :: pathPrefixesAux ('/' :: acc) cs
    else pathPrefixesAux (c :: acc) cs

/-- All slash-separated ancestor paths of d, innermost last:
pathPrefixes of a/b/c is [a, a/b, a/b/c]. -/
def pathPrefixes (d : String) : List String :=
  pathPrefixesAux [] d.toList

/-- The directories a command creates: mkdir -p d creates d and every
ancestor of d that is absent. -/
def cmdDirTargets (cmd : List String) : List String :=
  match cmd with
  | ["mkdir", "-p", d] => pathPrefixes d
  | _ => []

/-- True when s begins with the given character sequence. -/
def strStarts (s : String) (tag : List Char) : Bool :=
  s.toList.take tag.length == tag

/-- True when the command's last argument is a file inside the icon output
directory (the convert and mogrify invocations of the ICONS loop). -/
def isIconCmd (cmd : List String) : Bool :=
  strStarts (cmd.getLast?.getD "") "res/images/md-icons/".toList

/-- True when the command's last argument is a file inside the symbol output
directory (the convert and mogrify invocations of the SYMBOLS loop). -/
def isSymbolCmd (cmd : List String) : Bool :=
  strStarts (cmd.getLast?.getD "") "res/images/md-symbols/".toList

/-- All output file paths one run produces, in catalog order. -/
def outputPaths : List String :=
  ICONS.flatMap (fun p => p.2.map iconOutfile) ++ SYMBOLS.map symbolOutfile

/-- A filesystem abstraction: the directories and files that exist.
Contents are irrelevant to the claims, so only the path sets are kept. -/
structure FS where
  dirs : List String
  files : List String
deriving DecidableEq

/-- Insert a path if absent; existing paths are left in place. -/
def insertD (l : List String) (x : String) : List String :=
  if x ∈ l then l else l ++ [x]

/-- Modelled from the spec: the effect of the external mkdir -p invocation
(the tool itself is not part of the repository).  It creates the directory
and its ancestors recursively when absent and succeeds without error when
they already exist — it never fails, so the result is always some. -/
def mkdirP (fs : List String) (d : String) : Option (List String) :=
  some ((pathPrefixes d).foldl insertD fs)

/-- Modelled from the spec: the filesystem effect of one external command.
mkdir -p creates the directory chain; convert creates or overwrites its
output file; mogrify rewrites its operand in place. -/
def applyCmd (fs : FS) (cmd : List String) : FS :=
  ⟨(cmdDirTargets cmd).foldl insertD fs.dirs,
   (cmdFileTargets cmd).foldl insertD fs.files⟩

/-- The filesystem after one run of the script on base directory md_dir. -/
def runEffect (fs : FS) (md_dir : String) : FS :=
  (scriptCommands md_dir).foldl applyCmd fs

theorem scriptRun_issued (o : Nat → List String → Int) (md_dir : String) :
    (scriptRun o md_dir).issued = scriptCommands md_dir := by
  simp [scriptRun, scriptCommands, iconCommands, symbolCommands,
    ICONS, SYMBOLS, runProc, mkdirIconsCmd, mkdirSymbolsCmd]

theorem mem_insertD_self (l : List String) (x : String) : x ∈ insertD l x := by
  unfold insertD
  split
  · assumption
  · simp

theorem mem_insertD_of_mem {l : List String} {y : String} (x : String)
    (h : y ∈ l) : y ∈ insertD l x := by
  unfold insertD
  split
  · exact h
  · exact List.mem_append_left _ h

theorem insertD_of_mem {l : List String} {x : String} (h : x ∈ l) :
    insertD l x = l := by
  unfold insertD
  split
  · rfl
  · contradiction

theorem mem_foldl_insertD_of_mem {y : String} (xs : List String) :
    ∀ {l : List String}, y ∈ l → y ∈ xs.foldl insertD l := by
  induction xs with
  | nil => intro l h; exact h
  | cons x xs ih =>
    intro l h
    exact ih (mem_insertD_of_mem x h)

theorem mem_foldl_insertD_self {x : String} (xs : List String) :
    x ∈ xs → ∀ (l : List String), x ∈ xs.foldl insertD l := by
  induction xs with
  | nil => intro hx; cases hx
  | cons a xs ih =>
    intro hx l
    rw [List.foldl_cons]
    rcases List.mem_cons.mp hx with h | h
    · subst h
      exact mem_foldl_insertD_of_mem xs (mem_insertD_self l x)
    · exact ih h (insertD l a)

theorem foldl_insertD_of_subset (xs : List String) :
    ∀ {l : List String}, (∀ x ∈ xs, x ∈ l) → xs.foldl insertD l = l := by
  induction xs with
  | nil => intro l _; rfl
  | cons x xs ih =>
    intro l h
    have hx : x ∈ l := h x (List.mem_cons_self x xs)
    have : insertD l x = l := insertD_of_mem hx
    rw [List.foldl_cons, this]
    exact ih (fun y hy => h y (List.mem_cons_of_mem x hy))

theorem mem_dirs_applyCmd {fs : FS} {y : String} (cmd : List String)
    (h : y ∈ fs.dirs) : y ∈ (applyCmd fs cmd).dirs :=
  mem_foldl_insertD_of_mem _ h

theorem mem_files_applyCmd {fs : FS} {y : String} (cmd : List String)
    (h : y ∈ fs.files) : y ∈ (applyCmd fs cmd).files :=
  mem_foldl_insertD_of_mem _ h

theorem dirTargets_mem_applyCmd {y : String} {cmd : List String}
    (h : y ∈ cmdDirTargets cmd) (fs : FS) : y ∈ (applyCmd fs cmd).dirs :=
  mem_foldl_insertD_self _ h _

theorem fileTargets_mem_applyCmd {y : String} {cmd : List String}
    (h : y ∈ cmdFileTargets cmd) (fs : FS) : y ∈ (applyCmd fs cmd).files :=
  mem_foldl_insertD_self _ h _

theorem applyCmd_of_covered {fs : FS} {cmd : List String}
    (hd : ∀ y ∈ cmdDirTargets cmd, y ∈ fs.dirs)
    (hf : ∀ y ∈ cmdFileTargets cmd, y ∈ fs.files) :
    applyCmd fs cmd = fs := by
  have h1 := foldl_insertD_of_subset (cmdDirTargets cmd) hd
  have h2 := foldl_insertD_of_subset (cmdFileTargets cmd) hf
  unfold applyCmd
  rw [h1, h2]

theorem mem_dirs_foldl_applyCmd {y : String} (cmds : List (List String)) :
    ∀ {fs : FS}, y ∈ fs.dirs → y ∈ (cmds.foldl applyCmd fs).dirs := by
  induction cmds with
  | nil => intro fs h; exact h
  | cons c cmds ih =>
    intro fs h
    rw [List.foldl_cons]
    exact ih (mem_dirs_applyCmd c h)

theorem mem_files_foldl_applyCmd {y : String} (cmds : List (List String)) :
    ∀ {fs : FS}, y ∈ fs.files → y ∈ (cmds.foldl applyCmd fs).files := by
  induction cmds with
  | nil => intro fs h; exact h
  | cons c cmds ih =>
    intro fs h
    rw [List.foldl_cons]
    exact ih (mem_files_applyCmd c h)

theorem dirTargets_mem_foldl_applyCmd {y : String} {c : List String}
    (cmds : List (List String)) :
    c ∈ cmds → y ∈ cmdDirTargets c → ∀ (fs : FS),
      y ∈ (cmds.foldl applyCmd fs).dirs := by
  induction cmds with
  | nil => intro h; cases h
  | cons a cmds ih =>
    intro hc hy fs
    rw [List.foldl_cons]
    rcases List.mem_cons.mp hc with h | h
    · subst h
      exact mem_dirs_foldl_applyCmd cmds (dirTargets_mem_applyCmd hy fs)
    · exact ih h hy (applyCmd fs a)

theorem fileTargets_mem_foldl_applyCmd {y : String} {c : List String}
    (cmds : List (List String)) :
    c ∈ cmds → y ∈ cmdFileTargets c → ∀ (fs : FS),
      y ∈ (cmds.foldl applyCmd fs).files := by
  induction cmds with
  | nil => intro h; cases h
  | cons a cmds ih =>
    intro hc hy fs
    rw [List.foldl_cons]
    rcases List.mem_cons.mp hc with h | h
    · subst h
      exact mem_files_foldl_applyCmd cmds (fileTargets_mem_applyCmd hy fs)
    · exact ih h hy (applyCmd fs a)

theorem foldl_applyCmd_of_covered (cmds : List (List String)) :
    ∀ {fs : FS}, (∀ c ∈ cmds, (∀ y ∈ cmdDirTargets c, y ∈ fs.dirs) ∧
      (∀ y ∈ cmdFileTargets c, y ∈ fs.files)) →
    cmds.foldl applyCmd fs = fs := by
  induction cmds with
  | nil => intro fs _; rfl
  | cons c cmds ih =>
    intro fs h
    have hc := h c (List.mem_cons_self c cmds)
    have he : applyCmd fs c = fs := applyCmd_of_covered hc.1 hc.2
    rw [List.foldl_cons, he]
    exact ih (fun d hd => h d (List.mem_cons_of_mem c hd))

theorem runEffect_idem (fs : FS) (md_dir : String) :
    runEffect (runEffect fs md_dir) md_dir = runEffect fs md_dir := by
  unfold runEffect
  apply foldl_applyCmd_of_covered
  intro c hc
  exact ⟨fun y hy => dirTargets_mem_foldl_applyCmd _ hc hy fs,
         fun y hy => fileTargets_mem_foldl_applyCmd _ hc hy fs⟩

theorem mem_pair_cases {α : Type} {cmd a b : α} (h : cmd ∈ [a, b]) : cmd = a ∨ cmd = b := by
  rcases List.mem_cons.mp h with h | h
  · exact Or.inl h
  · rcases List.mem_cons.mp h with h | h
    · exact Or.inr h
    · cases h

theorem mem_scriptCommands_cases {md_dir : String} {cmd : List String}
    (h : cmd ∈ scriptCommands md_dir) :
    cmd = mkdirIconsCmd ∨ cmd = mkdirSymbolsCmd ∨
    (∃ group names name, (group, names) ∈ ICONS ∧ name ∈ names ∧
      (cmd = convertCmd (iconSrcPath md_dir group name) (iconOutfile name) ∨
       cmd = mogrifyCmd (iconOutfile name))) ∨
    (∃ symbol, symbol ∈ SYMBOLS ∧
      (cmd = convertCmd (symbolSrcPath md_dir symbol) (symbolOutfile symbol) ∨
       cmd = mogrifyCmd (symbolOutfile symbol))) := by
  rcases List.mem_cons.mp h with h | h
  · exact Or.inl h
  rcases List.mem_cons.mp h with h | h
  · exact Or.inr (Or.inl h)
  rcases List.mem_append.mp h with h | h
  · obtain ⟨p, hp, h2⟩ := List.mem_flatMap.mp h
    obtain ⟨name, hn, h3⟩ := List.mem_flatMap.mp h2
    exact Or.inr (Or.inr (Or.inl ⟨p.1, p.2, name, hp, hn, mem_pair_cases h3⟩))
  · obtain ⟨s, hs, h2⟩ := List.mem_flatMap.mp h
    exact Or.inr (Or.inr (Or.inr ⟨s, hs, mem_pair_cases h2⟩))

theorem iconCmd_index_lt {md_dir : String} {i : Nat} {cmd : List String}
    (h : (scriptCommands md_dir)[i]? = some cmd) (hic : isIconCmd cmd = true) :
    i < 10 := by
  by_contra hc
  push_neg at hc
  have h2 : ((scriptCommands md_dir).drop 10)[i - 10]? = some cmd := by
    rw [List.getElem?_drop]
    have he : 10 + (i - 10) = i := by omega
    rw [he]
    exact h
  have hd : (scriptCommands md_dir).drop 10 = symbolCommands md_dir := rfl
  rw [hd] at h2
  obtain ⟨s, hs, h3⟩ := List.mem_flatMap.mp (List.getElem?_mem h2)
  fin_cases hs <;> rcases mem_pair_cases h3 with rfl | rfl <;>
    exact Bool.noConfusion hic

theorem symbolCmd_index_ge {md_dir : String} {j : Nat} {cmd : List String}
    (h : (scriptCommands md_dir)[j]? = some cmd) (hsc : isSymbolCmd cmd = true) :
    10 ≤ j := by
  by_contra hc
  push_neg at hc
  have h2 : ((scriptCommands md_dir).take 10)[j]? = some cmd := by
    rw [List.getElem?_take, if_pos hc]
    exact h
  have ht : (scriptCommands md_dir).take 10 =
      mkdirIconsCmd :: mkdirSymbolsCmd :: iconCommands md_dir := rfl
  rw [ht] at h2
  have hm := List.getElem?_mem h2
  rcases List.mem_cons.mp hm with rfl | hm
  · exact Bool.noConfusion hsc
  rcases List.mem_cons.mp hm with rfl | hm
  · exact Bool.noConfusion hsc
  obtain ⟨p, hp, h3⟩ := List.mem_flatMap.mp hm
  obtain ⟨name, hn, h4⟩ := List.mem_flatMap.mp h3
  fin_cases hp <;> fin_cases hn <;> rcases mem_pair_cases h4 with rfl | rfl <;>
    exact Bool.noConfusion hsc

/-- Claim C1: for every pair (group, name) with group a key of the icon
catalog and name an element of its sequence, the script issues a rasterizer
invocation whose source path is exactly
md_dir/src/group/name/materialicons/24px.svg, md_dir being the single
command-line argument. -/
theorem claim_C1_icon_source_paths (md_dir group : String)
    (names : List String) (name : String)
    (hg : (group, names) ∈ ICONS) (hn : name ∈ names) :
    convertCmd (md_dir ++ "/src/" ++ group ++ "/" ++ name ++ "/materialicons/24px.svg")
      (iconOutfile name) ∈ scriptCommands md_dir := by
  refine List.mem_cons_of_mem _ (List.mem_cons_of_mem _ (List.mem_append_left _ ?_))
  unfold iconCommands
  refine List.mem_flatMap.mpr ⟨(group, names), hg, ?_⟩
  refine List.mem_flatMap.mpr ⟨name, hn, ?_⟩
  exact List.mem_cons_self _ _

/-- Concrete instance of claim C1 at base directory BASE and the catalog
entry (av, play_arrow). -/
theorem claim_C1_icon_source_paths_w :
    ("av", ["play_arrow", "pause", "stop"]) ∈ ICONS ∧
    "play_arrow" ∈ ["play_arrow", "pause", "stop"] ∧
    convertCmd ("BASE" ++ "/src/" ++ "av" ++ "/" ++ "play_arrow" ++ "/materialicons/24px.svg")
      (iconOutfile "play_arrow") ∈ scriptCommands "BASE" :=
  ⟨by decide, by decide,
   claim_C1_icon_source_paths "BASE" "av" ["play_arrow", "pause", "stop"] "play_arrow"
     (by decide) (by decide)⟩

/-- Claim C2: for every name of the symbol catalog, the script issues a
rasterizer invocation whose source path is exactly
md_dir/symbols/web/name/materialsymbolssharp/name_wght100_24px.svg,
md_dir being the single command-line argument. -/
theorem claim_C2_symbol_source_paths (md_dir symbol : String)
    (hs : symbol ∈ SYMBOLS) :
    convertCmd (md_dir ++ "/symbols/web/" ++ symbol ++ "/materialsymbolssharp/" ++
        symbol ++ "_wght100_24px.svg")
      (symbolOutfile symbol) ∈ scriptCommands md_dir := by
  refine List.mem_cons_of_mem _ (List.mem_cons_of_mem _ (List.mem_append_right _ ?_))
  unfold symbolCommands
  exact List.mem_flatMap.mpr ⟨symbol, hs, List.mem_cons_self _ _⟩

/-- Concrete instance of claim C2 at base directory BASE and the symbol piano. -/
theorem claim_C2_symbol_source_paths_w :
    "piano" ∈ SYMBOLS ∧
    convertCmd ("BASE" ++ "/symbols/web/" ++ "piano" ++ "/materialsymbolssharp/" ++
        "piano" ++ "_wght100_24px.svg")
      (symbolOutfile "piano") ∈ scriptCommands "BASE" :=
  ⟨by decide, claim_C2_symbol_source_paths "BASE" "piano" (by decide)⟩

/-- Claim C3: every rasterizer invocation the script issues carries exactly
the fixed parameters density 576, background none, and negate, and writes to
res/images/md-icons/name.png or res/images/md-symbols/name.png for a
catalog name; conversely every catalog entry gets such an invocation. -/
theorem claim_C3_convert_fixed_params (md_dir : String) :
    (∀ cmd ∈ scriptCommands md_dir, cmd.head? = some "convert" →
      ∃ src out,
        cmd = ["convert", src, "-density", "576", "-background", "none", "-negate", out] ∧
        ((∃ name ∈ iconNames, out = "res/images/md-icons/" ++ name ++ ".png") ∨
         (∃ s ∈ SYMBOLS, out = "res/images/md-symbols/" ++ s ++ ".png"))) ∧
    (∀ group names name, (group, names) ∈ ICONS → name ∈ names →
      convertCmd (iconSrcPath md_dir group name)
        ("res/images/md-icons/" ++ name ++ ".png") ∈ scriptCommands md_dir) ∧
    (∀ s ∈ SYMBOLS, convertCmd (symbolSrcPath md_dir s)
        ("res/images/md-symbols/" ++ s ++ ".png") ∈ scriptCommands md_dir) := by
  refine ⟨?_, ?_, ?_⟩
  · intro cmd hc hh
    rcases mem_scriptCommands_cases hc with rfl | rfl |
        ⟨g, ns, n, hg, hn, rfl | rfl⟩ | ⟨s, hs, rfl | rfl⟩
    · exact absurd (Option.some.inj hh) (by decide)
    · exact absurd (Option.some.inj hh) (by decide)
    · refine ⟨iconSrcPath md_dir g n, iconOutfile n, rfl, Or.inl ⟨n, ?_, rfl⟩⟩
      exact List.mem_flatMap.mpr ⟨(g, ns), hg, hn⟩
    · exact absurd (Option.some.inj hh) (by decide)
    · exact ⟨symbolSrcPath md_dir s, symbolOutfile s, rfl, Or.inr ⟨s, hs, rfl⟩⟩
    · exact absurd (Option.some.inj hh) (by decide)
  · intro g ns n hg hn
    refine List.mem_cons_of_mem _ (List.mem_cons_of_mem _ (List.mem_append_left _ ?_))
    unfold iconCommands
    exact List.mem_flatMap.mpr ⟨(g, ns), hg,
      List.mem_flatMap.mpr ⟨n, hn, List.mem_cons_self _ _⟩⟩
  · intro s hs
    refine List.mem_cons_of_mem _ (List.mem_cons_of_mem _ (List.mem_append_right _ ?_))
    unfold symbolCommands
    exact List.mem_flatMap.mpr ⟨s, hs, List.mem_cons_self _ _⟩

/-- Claim C4: every source path handed to an external tool is prefixed by
the base directory; every file written lies in one of the two fixed output
directories and carries a catalog name; every directory created is one of
the two fixed output directories or an ancestor of one. -/
theorem claim_C4_frame (md_dir : String) :
    ∀ cmd ∈ scriptCommands md_dir,
      (∀ src ∈ cmdSrcInputs cmd, ∃ rest, src = md_dir ++ rest) ∧
      (∀ out ∈ cmdFileTargets cmd,
        (∃ name ∈ iconNames, out = "res/images/md-icons/" ++ name ++ ".png") ∨
        (∃ s ∈ SYMBOLS, out = "res/images/md-symbols/" ++ s ++ ".png")) ∧
      (∀ d ∈ cmdDirTargets cmd,
        d ∈ pathPrefixes "res/images/md-icons" ∨
        d ∈ pathPrefixes "res/images/md-symbols") := by
  intro cmd hc
  rcases mem_scriptCommands_cases hc with rfl | rfl |
      ⟨g, ns, n, hg, hn, rfl | rfl⟩ | ⟨s, hs, rfl | rfl⟩
  · exact ⟨fun src h => absurd h (List.not_mem_nil _),
      fun out h => absurd h (List.not_mem_nil _),
      fun d h => Or.inl h⟩
  · exact ⟨fun src h => absurd h (List.not_mem_nil _),
      fun out h => absurd h (List.not_mem_nil _),
      fun d h => Or.inr h⟩
  · refine ⟨?_, ?_, fun d h => absurd h (List.not_mem_nil _)⟩
    · intro src h
      rcases List.mem_cons.mp h with rfl | h
      · exact ⟨"/src/" ++ g ++ "/" ++ n ++ "/materialicons/24px.svg",
          by simp [iconSrcPath, String.append_assoc]⟩
      · exact absurd h (List.not_mem_nil _)
    · intro out h
      rcases List.mem_cons.mp h with rfl | h
      · exact Or.inl ⟨n, List.mem_flatMap.mpr ⟨(g, ns), hg, hn⟩, rfl⟩
      · exact absurd h (List.not_mem_nil _)
  · refine ⟨fun src h => absurd h (List.not_mem_nil _), ?_,
      fun d h => absurd h (List.not_mem_nil _)⟩
    intro out h
    rcases List.mem_cons.mp h with rfl | h
    · exact Or.inl ⟨n, List.mem_flatMap.mpr ⟨(g, ns), hg, hn⟩, rfl⟩
    · exact absurd h (List.not_mem_nil _)
  · refine ⟨?_, ?_, fun d h => absurd h (List.not_mem_nil _)⟩
    · intro src h
      rcases List.mem_cons.mp h with rfl | h
      · exact ⟨"/symbols/web/" ++ s ++ "/materialsymbolssharp/" ++ s ++ "_wght100_24px.svg",
          by simp [symbolSrcPath, String.append_assoc]⟩
      · exact absurd h (List.not_mem_nil _)
    · intro out h
      rcases List.mem_cons.mp h with rfl | h
      · exact Or.inr ⟨s, hs, rfl⟩
      · exact absurd h (List.not_mem_nil _)
  · refine ⟨fun src h => absurd h (List.not_mem_nil _), ?_,
      fun d h => absurd h (List.not_mem_nil _)⟩
    intro out h
    rcases List.mem_cons.mp h with rfl | h
    · exact Or.inr ⟨s, hs, rfl⟩
    · exact absurd h (List.not_mem_nil _)

/-- Claim C5: the script never inspects the exit status of an invoked
process: the commands it issues equal the full fixed command list whatever
statuses the oracle returns, so they are identical for any two oracles and
a failing invocation removes no later invocation. -/
theorem claim_C5_no_status_inspection (md_dir : String)
    (o o2 : Nat → List String → Int) :
    (scriptRun o md_dir).issued = scriptCommands md_dir ∧
    (scriptRun o md_dir).issued = (scriptRun o2 md_dir).issued :=
  ⟨scriptRun_issued o md_dir,
   (scriptRun_issued o md_dir).trans (scriptRun_issued o2 md_dir).symm⟩

/-- Claim C6: when the single command-line argument is missing (argv holds
at most the program name), the run aborts at the argument access and no
external command is issued, whatever the environment would have answered. -/
theorem claim_C6_missing_argument (argv : List String)
    (o : Nat → List String → Int) (h : argv.length ≤ 1) :
    scriptMain argv o = none := by
  unfold scriptMain
  rw [List.getElem?_eq_none h]

/-- Concrete instance of claim C6: argv holding only the program name. -/
theorem claim_C6_missing_argument_w :
    (["res/tools/generate-md-icons.py"] : List String).length ≤ 1 ∧
    scriptMain ["res/tools/generate-md-icons.py"] (fun _ _ => 0) = none :=
  ⟨by decide,
   claim_C6_missing_argument ["res/tools/generate-md-icons.py"] (fun _ _ => 0) (by decide)⟩

/-- Claim C7: the first two commands issued are the two recursive
directory-preparation commands and every rasterizer invocation comes after
them; the modelled mkdir -p effect always succeeds, leaves both output
directories present, and is a no-op without error when the directories
already exist. -/
theorem claim_C7_prepare_dirs (md_dir : String) (fs : List String) :
    (scriptCommands md_dir).take 2 = [mkdirIconsCmd, mkdirSymbolsCmd] ∧
    (∀ i cmd, (scriptCommands md_dir)[i]? = some cmd →
      cmd.head? = some "convert" → 2 ≤ i) ∧
    (∃ fs1 fs2, mkdirP fs "res/images/md-icons" = some fs1 ∧
      mkdirP fs1 "res/images/md-symbols" = some fs2 ∧
      "res/images/md-icons" ∈ fs2 ∧ "res/images/md-symbols" ∈ fs2) ∧
    (∀ d, (∀ p ∈ pathPrefixes d, p ∈ fs) → mkdirP fs d = some fs) := by
  refine ⟨rfl, ?_, ?_, ?_⟩
  · intro i cmd h hh
    by_contra hc
    push_neg at hc
    interval_cases i
    · have he : mkdirIconsCmd = cmd :=
        Option.some.inj ((rfl : (scriptCommands md_dir)[0]? = some mkdirIconsCmd).symm.trans h)
      subst he
      exact absurd (Option.some.inj hh) (by decide)
    · have he : mkdirSymbolsCmd = cmd :=
        Option.some.inj ((rfl : (scriptCommands md_dir)[1]? = some mkdirSymbolsCmd).symm.trans h)
      subst he
      exact absurd (Option.some.inj hh) (by decide)
  · refine ⟨_, _, rfl, rfl, ?_, ?_⟩
    · exact mem_foldl_insertD_of_mem _ (mem_foldl_insertD_self _ (by decide) fs)
    · exact mem_foldl_insertD_self _ (by decide) _
  · intro d h
    unfold mkdirP
    rw [foldl_insertD_of_subset _ h]

/-- Claim C8: execution is strictly sequential in catalog order: each
entry's rasterize invocation is immediately followed by its metadata-strip
invocation, and every command touching the icon output directory precedes
every command touching the symbol output directory. -/
theorem claim_C8_sequential_order (md_dir : String) :
    (∀ group names name, (group, names) ∈ ICONS → name ∈ names →
      ∃ k, (scriptCommands md_dir)[k]? =
          some (convertCmd (iconSrcPath md_dir group name) (iconOutfile name)) ∧
        (scriptCommands md_dir)[k + 1]? = some (mogrifyCmd (iconOutfile name))) ∧
    (∀ symbol ∈ SYMBOLS,
      ∃ k, (scriptCommands md_dir)[k]? =
          some (convertCmd (symbolSrcPath md_dir symbol) (symbolOutfile symbol)) ∧
        (scriptCommands md_dir)[k + 1]? = some (mogrifyCmd (symbolOutfile symbol))) ∧
    (∀ (i j : Nat) (ci cj : List String), (scriptCommands md_dir)[i]? = some ci →
      (scriptCommands md_dir)[j]? = some cj →
      isIconCmd ci = true → isSymbolCmd cj = true → i < j) := by
  refine ⟨?_, ?_, ?_⟩
  · intro g ns n hg hn
    rcases mem_pair_cases hg with h | h
    · injection h with h1 h2
      subst h1
      subst h2
      fin_cases hn
      · exact ⟨2, rfl, rfl⟩
      · exact ⟨4, rfl, rfl⟩
      · exact ⟨6, rfl, rfl⟩
    · injection h with h1 h2
      subst h1
      subst h2
      fin_cases hn
      · exact ⟨8, rfl, rfl⟩
  · intro s hs
    fin_cases hs
    · exact ⟨10, rfl, rfl⟩
    · exact ⟨12, rfl, rfl⟩
    · exact ⟨14, rfl, rfl⟩
    · exact ⟨16, rfl, rfl⟩
    · exact ⟨18, rfl, rfl⟩
    · exact ⟨20, rfl, rfl⟩
    · exact ⟨22, rfl, rfl⟩
    · exact ⟨24, rfl, rfl⟩
  · intro i j ci cj hi hj hic hsc
    have h1 := iconCmd_index_lt hi hic
    have h2 := symbolCmd_index_ge hj hsc
    omega

/-- Claim C9: a rerun with the same base directory issues the identical
command sequence whatever the environment answered either time, and the
modelled filesystem effect of a second run changes nothing: outputs are
overwritten in place, never failing and never accumulating. -/
theorem claim_C9_rerun_identical (md_dir : String) (fs : FS)
    (o o2 : Nat → List String → Int) :
    (scriptRun o md_dir).issued = (scriptRun o2 md_dir).issued ∧
    runEffect (runEffect fs md_dir) md_dir = runEffect fs md_dir :=
  ⟨(scriptRun_issued o md_dir).trans (scriptRun_issued o2 md_dir).symm,
   runEffect_idem fs md_dir⟩

/-- Claim C10: the file outputs of one run are exactly the catalog output
paths, each written twice in place (convert, then mogrify); those paths are
pairwise distinct, icon names and symbol names are duplicate-free, and the
names listed in both catalogs are drag_indicator, play_arrow and stop. -/
theorem claim_C10_distinct_outputs :
    (∀ md_dir : String, (scriptCommands md_dir).flatMap cmdFileTargets =
      outputPaths.flatMap (fun o => [o, o])) ∧
    outputPaths.Nodup ∧ iconNames.Nodup ∧ SYMBOLS.Nodup ∧
    iconNames.filter (fun n => SYMBOLS.contains n) =
      ["play_arrow", "stop", "drag_indicator"] :=
  ⟨fun _ => rfl, by decide, by decide, by decide, by decide⟩

/-- Concrete instance of claim C4 at base directory BASE and the rasterize
command of the icon pause. -/
theorem claim_C4_frame_w :
    convertCmd (iconSrcPath "BASE" "av" "pause") (iconOutfile "pause") ∈
      scriptCommands "BASE" ∧
    ((∀ src ∈ cmdSrcInputs (convertCmd (iconSrcPath "BASE" "av" "pause") (iconOutfile "pause")),
        ∃ rest, src = "BASE" ++ rest) ∧
     (∀ out ∈ cmdFileTargets (convertCmd (iconSrcPath "BASE" "av" "pause") (iconOutfile "pause")),
        (∃ name ∈ iconNames, out = "res/images/md-icons/" ++ name ++ ".png") ∨
        (∃ s ∈ SYMBOLS, out = "res/images/md-symbols/" ++ s ++ ".png")) ∧
     (∀ d ∈ cmdDirTargets (convertCmd (iconSrcPath "BASE" "av" "pause") (iconOutfile "pause")),
        d ∈ pathPrefixes "res/images/md-icons" ∨
        d ∈ pathPrefixes "res/images/md-symbols")) :=
  ⟨by decide, claim_C4_frame "BASE" _ (by decide)⟩
